import Mathlib

/-!
Verification development for the TransGPA transcript-to-ledger pipeline.

The definitions below are a shallow embedding of the two core modules:

* the Extractor (the client app's `pdf-parser.ts`, the module the UI
  components import; the repository also keeps an earlier revision of the
  same module at `src/lib/pdf-parser.ts`), and
* the Ledger Engine (`gpa-engine.ts`) together with the editing helpers of
  `client/src/components/TranscriptView.tsx` and the caller check in
  `App.tsx`.

JavaScript numbers are modelled as rationals (all numeric literals used by
the program are exactly representable binary floats, and every claim below
only exercises exact values).  JavaScript regular expressions are modelled
by bespoke backtracking matchers, one per source pattern, whose search
order mirrors the JS engine (leftmost match, greedy/lazy quantifiers,
ordered alternation).
-/

namespace TransGPA

/-! ### Character classes (JS `\s`, `\d`, `[A-Z]`, the dot) -/

/-- JS `\s` restricted to the ASCII whitespace actually produced by the
text-extraction step (space, tab, LF, CR, FF, VT). -/
def isWsChar (c : Char) : Bool :=
  c = ' ' || c = '\t' || c = '\n' || c = '\r' || c = Char.ofNat 11 || c = Char.ofNat 12

/-- The JS dot (no `s` flag): any character except line terminators. -/
def isDotChar (c : Char) : Bool := !(c = '\n' || c = '\r')

/-- Apostrophe, kept out of string literals. -/
def aposC : Char := Char.ofNat 39

def aposS : String := String.mk [aposC]

/-! ### Exact rationals

Every number the program manipulates (credits with one decimal digit,
quarter-point grade values, their products, sums and quotients) is an exact
value, so JS numbers are modelled by exact rationals.  A bespoke structure
is used instead of `Rat` so that every arithmetic step reduces inside the
kernel: all values are built through `mkQnat`, which normalises with a
fuel-driven Euclidean gcd, hence structural equality of `Q` values
coincides with equality of the rationals they denote. -/

/-- Euclidean gcd with explicit fuel (`gcdFuel (a+b+1) a b = Nat.gcd a b`). -/
def gcdFuel : Nat → Nat → Nat → Nat
  | 0, _, b => b
  | _ + 1, 0, b => b
  | f + 1, a + 1, b => gcdFuel f (b % (a + 1)) (a + 1)

def natGcd (a b : Nat) : Nat := gcdFuel (a + b + 1) a b

structure Q where
  num : Int
  den : Nat
  deriving DecidableEq

/-- Normalised rational `n / d` (for `d = 0`, the value `0`; the modelled
code never divides by zero). -/
def mkQnat (n : Int) (d : Nat) : Q :=
  if d = 0 then ⟨0, 1⟩
  else
    let g := natGcd n.natAbs d
    ⟨n / (g : Int), d / g⟩

/-- Normalised rational with a possibly negative denominator. -/
def mkQ (n d : Int) : Q :=
  if d < 0 then mkQnat (-n) (-d).toNat else mkQnat n d.toNat

def Q.add (a b : Q) : Q :=
  mkQnat (a.num * (b.den : Int) + b.num * (a.den : Int)) (a.den * b.den)

def Q.mul (a b : Q) : Q := mkQnat (a.num * b.num) (a.den * b.den)

def Q.div (a b : Q) : Q := mkQ (a.num * (b.den : Int)) ((a.den : Int) * b.num)

/-- Strict comparison by cross multiplication (denominators of constructed
values are positive). -/
def Q.blt (a b : Q) : Bool := a.num * (b.den : Int) < b.num * (a.den : Int)

def Q.max (a b : Q) : Q := if a.blt b then b else a

instance (n : Nat) : OfNat Q n := ⟨⟨Int.ofNat n, 1⟩⟩

instance : Add Q := ⟨Q.add⟩

instance : Mul Q := ⟨Q.mul⟩

instance : Div Q := ⟨Q.div⟩

/-! ### Grade table (`GRADE_POINTS`, `GRADES_ORDER`, `getGradePoints`) -/

/-- `GRADE_POINTS` object literal from pdf-parser.ts, as an ordered
association list. -/
def GRADE_POINTS : List (String × Q) :=
  [("A", 4), ("A-", 15/4),
   ("B+", 7/2), ("B", 3),
   ("C+", 5/2), ("C", 2),
   ("D+", 3/2), ("D", 1),
   ("F", 0),
   ("W", 0),
   ("I", 0)]

/-- First-match lookup in an association list of grade points. -/
def lookupGP (g : String) : List (String × Q) → Option Q
  | [] => none
  | (k, v) :: rest => if k = g then some v else lookupGP g rest

/-- `getGradePoints`: `GRADE_POINTS[grade] ?? 0`. -/
def getGradePoints (grade : String) : Q :=
  (lookupGP grade GRADE_POINTS).getD 0

/-- `GRADES_ORDER`, the canonical high-to-low grade ordering. -/
def GRADES_ORDER : List String :=
  ["A", "A-", "B+", "B", "C+", "C", "D+", "D", "F"]

/-! ### Data model (`Course`, `Semester`, `StudentInfo`, `TranscriptData`) -/

structure Course where
  code : String
  title : String
  credits : Q
  grade : String
  points : Q
  isRepeat : Bool
  deriving DecidableEq

structure Semester where
  id : String
  name : String
  courses : List Course
  sgpa : Q
  totalPoints : Q
  totalCredits : Q
  deriving DecidableEq

structure StudentInfo where
  name : String
  fatherName : String
  studentNo : String
  program : String
  regStatus : String
  cgpa : String
  deriving DecidableEq

structure TranscriptData where
  student : StudentInfo
  semesters : List Semester
  extractedCgpa : String
  deriving DecidableEq

structure GpaResult where
  cgpa : String
  totalCredits : Q
  totalPoints : Q
  totalEarnedCredits : Q
  deriving DecidableEq

structure SemesterProgression where
  semesterId : String
  cumulativeCGPA : String
  cumulativeCredits : Q
  deriving DecidableEq

/-! ### `toFixed(2)` -/

def pad2 (n : Nat) : String :=
  if n < 10 then "0" ++ Nat.repr n else Nat.repr n

/-- `Number.prototype.toFixed(2)`: the integer `n` with `n/100` closest to
the value, ties toward the larger `n`, i.e. `n = floor(100*q + 1/2)`.
(Only nonnegative, non-tie values occur in this program.) -/
def toFixed2 (q : Q) : String :=
  let n : Int := Int.fdiv (q.num * 200 + (q.den : Int)) (2 * (q.den : Int))
  if n < 0 then "-" ++ Nat.repr ((-n).toNat / 100) ++ "." ++ pad2 ((-n).toNat % 100)
  else Nat.repr (n.toNat / 100) ++ "." ++ pad2 (n.toNat % 100)

/-! ### Ledger Engine (`gpa-engine.ts`) -/

/-- `course.code.replace(/[-\s]/g, '').toUpperCase()`. -/
def normalizeCode (code : String) : String :=
  String.mk ((code.data.filter (fun c => !(c = '-' || isWsChar c))).map Char.toUpper)

/-- Insertion-ordered map lookup (JS `Map.get` / `Map.has`). -/
def mapLookup (k : String) : List (String × Course) → Option Course
  | [] => none
  | (k2, v) :: rest => if k2 = k then some v else mapLookup k rest

/-- JS `Map.set` on a key that may be present: overwrite in place keeps the
original insertion position; an absent key is appended. -/
def mapSet (k : String) (v : Course) : List (String × Course) → List (String × Course)
  | [] => [(k, v)]
  | (k2, v2) :: rest => if k2 = k then (k2, v) :: rest else (k2, v2) :: mapSet k v rest

/-- The grade-points-per-credit ratio used for retake comparison:
`course.points / (course.credits || 1)` (JS `||`: a zero divisor falls back
to `1`). -/
def jsRatio (c : Course) : Q :=
  c.points / (if c.credits = 0 then 1 else c.credits)

/-- One iteration of the course-flattening loop of `calculateCGPA`. -/
def cgpaStep (m : List (String × Course)) (course : Course) : List (String × Course) :=
  let key := normalizeCode course.code
  match mapLookup key m with
  | none => m ++ [(key, course)]
  | some existing =>
      if (jsRatio existing).blt (jsRatio course) then mapSet key course m else m

/-- The per-group winner induced by `cgpaStep`: keep the earlier attempt
unless the later one has a strictly higher `jsRatio`. -/
def pickWinner (existing course : Course) : Course :=
  if (jsRatio existing).blt (jsRatio course) then course else existing

/-- The nested `forEach` of `calculateCGPA` building `courseMap`. -/
def buildCourseMap (semesters : List Semester) : List (String × Course) :=
  semesters.foldl (fun m sem => sem.courses.foldl cgpaStep m) []

/-- The totals loop of `calculateCGPA`: skip `W`/`I`; accumulate
`(totalPoints, totalCredits, totalEarnedCredits)`, the earned credits
excluding `F`. -/
def cgpaTotals (m : List (String × Course)) : Q × Q × Q :=
  m.foldl (fun acc kv =>
    let course := kv.2
    if course.grade = "W" || course.grade = "I" then acc
    else (acc.1 + course.points, acc.2.1 + course.credits,
          acc.2.2 + (if course.grade = "F" then 0 else course.credits)))
    (0, 0, 0)

/-- `calculateCGPA` from gpa-engine.ts. -/
def calculateCGPA (semesters : List Semester) : GpaResult :=
  let m := buildCourseMap semesters
  let t := cgpaTotals m
  { cgpa := if Q.blt 0 t.2.1 then toFixed2 (t.1 / t.2.1) else "0.00"
    totalCredits := t.2.1
    totalPoints := t.1
    totalEarnedCredits := t.2.2 }

/-- The loop body of `calculateSemesterProgressions`: push the semester onto
the processed prefix, recompute the CGPA of the whole prefix. -/
def progressionsGo (processed : List Semester) : List Semester → List SemesterProgression
  | [] => []
  | s :: rest =>
      let newProcessed := processed ++ [s]
      let stats := calculateCGPA newProcessed
      { semesterId := s.id
        cumulativeCGPA := stats.cgpa
        cumulativeCredits := stats.totalCredits } :: progressionsGo newProcessed rest

/-- `calculateSemesterProgressions` from gpa-engine.ts. -/
def calculateSemesterProgressions (semesters : List Semester) : List SemesterProgression :=
  progressionsGo [] semesters

/-! ### Editing layer (`TranscriptView.tsx`, `App.tsx`) -/

/-- JS `x || 0` on a number that is not NaN. -/
def jsOr0 (q : Q) : Q := if q = 0 then 0 else q

/-- `recalculateSemester` from TranscriptView.tsx. -/
def recalculateSemester (sem : Semester) : Semester :=
  let effectiveCourses := sem.courses.filter (fun c => c.grade != "W" && c.grade != "I")
  let totalCredits := effectiveCourses.foldl (fun sum c => sum + jsOr0 c.credits) 0
  let totalPoints := effectiveCourses.foldl (fun sum c => sum + jsOr0 c.points) 0
  let sgpa := if Q.blt 0 totalCredits then totalPoints / totalCredits else 0
  { sem with sgpa := sgpa, totalCredits := totalCredits, totalPoints := totalPoints }

/-- The per-course update of `handleGradeChange`:
`{ ...course, grade: newGrade, points: getGradePoints(newGrade) * (newGrade === 'W' ? 0 : course.credits) }`. -/
def updateCourseGrade (newGrade : String) (course : Course) : Course :=
  { course with
      grade := newGrade
      points := getGradePoints newGrade * (if newGrade = "W" then 0 else course.credits) }

/-- `handleGradeChange` from TranscriptView.tsx (the state update applied to
the previous semester list). -/
def handleGradeChange (semId courseCode newGrade : String)
    (sems : List Semester) : List Semester :=
  sems.map (fun sem =>
    if sem.id != semId then sem
    else recalculateSemester
      { sem with courses := sem.courses.map (fun course =>
          if course.code != courseCode then course
          else updateCourseGrade newGrade course) })

/-- The zero-semester guard of `handleFileUpload` in App.tsx. -/
def handleUploadCheck (parsedData : TranscriptData) : Except String TranscriptData :=
  if parsedData.semesters.length = 0 then
    Except.error "Could not find any semester data. Please check the PDF format."
  else Except.ok parsedData

/-! ### Matching primitives

Each JS pattern of the Extractor is modelled by a bespoke matcher over
`List Char`.  A matcher consumes from the front of the list and returns the
unconsumed tail (`none` for a failed match at this position).  Greedy
whitespace/digit runs are taken maximally; this coincides with the JS
backtracking result because in every source pattern such a run is followed
by a required character from a disjoint class.  Where genuine alternatives
exist (the course pattern, the lazy captures) the JS exploration order is
reproduced explicitly. -/

/-- Consume a literal, case-insensitively; the pattern is given lowercase. -/
def litCI : List Char → List Char → Option (List Char)
  | [], l => some l
  | _ :: _, [] => none
  | p :: ps, c :: cs => if c.toLower = p then litCI ps cs else none

/-- Consume a literal, case-sensitively. -/
def litCS : List Char → List Char → Option (List Char)
  | [], l => some l
  | _ :: _, [] => none
  | p :: ps, c :: cs => if c = p then litCS ps cs else none

/-- `\s+` (maximal). -/
def wsPlus (l : List Char) : Option (List Char) :=
  match l with
  | c :: cs => if isWsChar c then some (cs.dropWhile isWsChar) else none
  | [] => none

/-- A single `\d`. -/
def digitCh : List Char → Option (List Char)
  | c :: cs => if c.isDigit then some cs else none
  | [] => none

/-- A word whose letters may be separated by `\s*` runs, e.g. the source
pattern `S\s*e\s*m\s*e\s*s\s*t\s*e\s*r` (case-insensitive). -/
def letterSplitCI : List Char → List Char → Option (List Char)
  | [], l => some l
  | _ :: _, [] => none
  | p :: ps, c :: cs =>
    if c.toLower = p then
      match ps with
      | [] => some cs
      | _ :: _ => letterSplitCI ps (cs.dropWhile isWsChar)
    else none

/-- `hi, hi-1, ..., lo` (empty when `hi < lo`); the exploration order of a
greedy bounded quantifier. -/
def descRange (hi lo : Nat) : List Nat :=
  (List.range' lo (hi + 1 - lo)).reverse

/-- First alternative that succeeds (ordered alternation / backtracking). -/
def firstSome {α β : Type} (xs : List α) (f : α → Option β) : Option β :=
  match xs with
  | [] => none
  | a :: as => match f a with
    | some b => some b
    | none => firstSome as f

/-- Strip ASCII whitespace from both ends (JS `String.prototype.trim` on
the values produced here). -/
def trimWs (l : List Char) : List Char :=
  ((l.dropWhile isWsChar).reverse.dropWhile isWsChar).reverse

/-- `replace(/\s+/g, ' ')`: collapse every whitespace run to one space. -/
def collapseWsAux : List Char → Bool → List Char
  | [], _ => []
  | c :: cs, prevWs =>
    if isWsChar c then
      if prevWs then collapseWsAux cs true else ' ' :: collapseWsAux cs true
    else c :: collapseWsAux cs false

def collapseWs (l : List Char) : List Char := collapseWsAux l false

/-- The `clean` helper of parseTranscript:
`text.replace(/\s+/g, ' ').trim()`. -/
def clean (l : List Char) : String := String.mk (trimWs (collapseWs l))

/-- `parseFloat` on the digit/dot captures produced by the patterns below
(`\d+\.\d` and `\d?\.\d{2}`). -/
def natOfDigits (l : List Char) : ℕ :=
  l.foldl (fun n c => n * 10 + (c.toNat - Char.toNat '0')) 0

def parseFloatQ (l : List Char) : Q :=
  let ip := l.takeWhile (fun c => c != '.')
  match l.dropWhile (fun c => c != '.') with
  | _ :: fp =>
      mkQnat ((natOfDigits ip * 10 ^ fp.length + natOfDigits fp : Nat) : Int) (10 ^ fp.length)
  | [] => mkQnat ((natOfDigits ip : Nat) : Int) 1

/-! ### Lazy captures with lookahead (the student-identity fields)

A pattern `\s*([\s\S]*?)(?=LA)` (or `\s+(...)` with `minWs = 1`) takes the
whitespace run greedily, then grows the lazy capture until the lookahead
holds.  If no position at or after the run satisfies the lookahead, the
engine hands whitespace back one character at a time, which can only ever
succeed with an empty capture at an earlier position (the lookahead is
position-only); `wsFallback` reproduces that descending scan. -/

/-- Grow the capture lazily until the lookahead holds. -/
def lazyCapture (la : List Char → Bool) : List Char → List Char → Option (List Char)
  | acc, [] => if la [] then some acc.reverse else none
  | acc, c :: cs =>
    if la (c :: cs) then some acc.reverse else lazyCapture la (c :: acc) cs

/-- Descending scan over positions `p, p-1, ..., minWs` inside the
whitespace run; a success yields an empty capture. -/
def wsFallback (la : List Char → Bool) (r : List Char) (minWs : Nat) : Nat → Option (List Char)
  | 0 => if la (r.drop 0) then some [] else none
  | p + 1 =>
    if la (r.drop (p + 1)) then some []
    else if p + 1 ≤ minWs then none
    else wsFallback la r minWs p

/-- `\s*(...)` (`minWs = 0`) or `\s+(...)` (`minWs = 1`) followed by a lazy
capture up to the lookahead `la`, at a fixed start position. -/
def captureAfterLabel (la : List Char → Bool) (minWs : Nat) (r : List Char) :
    Option (List Char) :=
  let g := (r.takeWhile isWsChar).length
  if g < minWs then none
  else match lazyCapture la [] (r.drop g) with
    | some cap => some cap
    | none => if g ≤ minWs then none else wsFallback la r minWs (g - 1)

/-- Lookahead of the name field:
`(?=\s+Father|\s+Student\s*No|\s+Reg\s*Status)`. -/
def laName (l : List Char) : Bool :=
  match wsPlus l with
  | none => false
  | some r =>
    (litCI ("father").data r).isSome
    || (match litCI ("student").data r with
        | some r2 => (litCI ("no").data (r2.dropWhile isWsChar)).isSome
        | none => false)
    || (match litCI ("reg").data r with
        | some r2 => (litCI ("status").data (r2.dropWhile isWsChar)).isSome
        | none => false)

/-- Lookahead of the father field: `(?=\s+Student\s*No|\s+Reg\s*Status)`. -/
def laFather (l : List Char) : Bool :=
  match wsPlus l with
  | none => false
  | some r =>
    (match litCI ("student").data r with
     | some r2 => (litCI ("no").data (r2.dropWhile isWsChar)).isSome
     | none => false)
    || (match litCI ("reg").data r with
        | some r2 => (litCI ("status").data (r2.dropWhile isWsChar)).isSome
        | none => false)

/-- Lookahead of the registration-status field: `(?=\s+Program)`. -/
def laRegStatus (l : List Char) : Bool :=
  match wsPlus l with
  | none => false
  | some r => (litCI ("program").data r).isSome

/-- Lookahead of the program field:
`(?=\s+Course\s+Tit|\s+Course\s+Cod|\s+Course\s+Code)`. -/
def laProgram (l : List Char) : Bool :=
  match wsPlus l with
  | none => false
  | some r =>
    match litCI ("course").data r with
    | none => false
    | some r2 =>
      match wsPlus r2 with
      | none => false
      | some r3 => (litCI ("tit").data r3).isSome || (litCI ("cod").data r3).isSome

/-- `/Student\s*Name:\s*([\s\S]*?)(?=...)/i` at a fixed position. -/
def nameTryAt (l : List Char) : Option (List Char) :=
  match litCI ("student").data l with
  | none => none
  | some r =>
    match litCI ("name:").data (r.dropWhile isWsChar) with
    | none => none
    | some r2 => captureAfterLabel laName 0 r2

/-- The pattern text of the father label, with its apostrophe. -/
def fatherLabel : List Char := ("father").data ++ [aposC, 's']

/-- `/Father's\s*Name:\s*([\s\S]*?)(?=...)/i` at a fixed position. -/
def fatherTryAt (l : List Char) : Option (List Char) :=
  match litCI fatherLabel l with
  | none => none
  | some r =>
    match litCI ("name:").data (r.dropWhile isWsChar) with
    | none => none
    | some r2 => captureAfterLabel laFather 0 r2

/-- `/Student\s*No:\s*([\d\s]+)/i` at a fixed position.  The greedy `\s*`
takes the whole whitespace run; when no digit or whitespace follows, the
engine hands back one whitespace character so the `[\d\s]+` group can match
it. -/
def stdNoTryAt (l : List Char) : Option (List Char) :=
  match litCI ("student").data l with
  | none => none
  | some r =>
    match litCI ("no:").data (r.dropWhile isWsChar) with
    | none => none
    | some r2 =>
      let g := (r2.takeWhile isWsChar).length
      let run := (r2.drop g).takeWhile (fun c => c.isDigit || isWsChar c)
      if run.isEmpty then
        if g = 0 then none
        else some ((r2.drop (g - 1)).takeWhile (fun c => c.isDigit || isWsChar c))
      else some run

/-- `/Reg\s*Status\s+([\s\S]*?)(?=\s+Program)/i` at a fixed position. -/
def regStatusTryAt (l : List Char) : Option (List Char) :=
  match litCI ("reg").data l with
  | none => none
  | some r =>
    match litCI ("status").data (r.dropWhile isWsChar) with
    | none => none
    | some r2 => captureAfterLabel laRegStatus 1 r2

/-- `/Program:\s*([\s\S]*?)(?=...)/i` at a fixed position. -/
def programTryAt (l : List Char) : Option (List Char) :=
  match litCI ("program:").data l with
  | none => none
  | some r => captureAfterLabel laProgram 0 r

/-- The capture `(\d?\.\d{2})`: the optional digit is kept when the dot and
two digits follow it, otherwise the pattern retries without it. -/
def capNoDigit : List Char → Option (List Char)
  | dot :: a :: b :: _ =>
    if dot == '.' && a.isDigit && b.isDigit then some [dot, a, b] else none
  | _ => none

def capTwoDec (l : List Char) : Option (List Char) :=
  match l with
  | c1 :: c2 :: a :: b :: _ =>
    if c1.isDigit && c2 == '.' && a.isDigit && b.isDigit then some [c1, c2, a, b]
    else capNoDigit l
  | _ => capNoDigit l

/-- `/CUMULATIVE\s+GRADE\s+POINT\s+AVERAGE\s*\(\s*CG\s*PA\s*\)\s*=\s*(\d?\.\d{2})/i`
at a fixed position. -/
def cgpaTryAt (l : List Char) : Option (List Char) :=
  (litCI ("cumulative").data l).bind (fun r =>
  (wsPlus r).bind (fun r =>
  (litCI ("grade").data r).bind (fun r =>
  (wsPlus r).bind (fun r =>
  (litCI ("point").data r).bind (fun r =>
  (wsPlus r).bind (fun r =>
  (litCI ("average").data r).bind (fun r =>
  (litCS ("(").data (r.dropWhile isWsChar)).bind (fun r =>
  (litCI ("cg").data (r.dropWhile isWsChar)).bind (fun r =>
  (litCI ("pa").data (r.dropWhile isWsChar)).bind (fun r =>
  (litCS (")").data (r.dropWhile isWsChar)).bind (fun r =>
  (litCS ("=").data (r.dropWhile isWsChar)).bind (fun r =>
  capTwoDec (r.dropWhile isWsChar)))))))))))))

/-- `/SGPA\s*[:\-]?\s*(\d?\.\d{2})/i` at a fixed position. -/
def sgpaTryAt (l : List Char) : Option (List Char) :=
  match litCI ("sgpa").data l with
  | none => none
  | some r =>
    let r1 := r.dropWhile isWsChar
    let r2 := match r1 with
      | c :: cs => if c = ':' || c = '-' then cs else c :: cs
      | [] => []
    capTwoDec (r2.dropWhile isWsChar)

/-- `text.match(re)` for a non-global pattern: the leftmost position where
the matcher succeeds. -/
def findFirstCap (tryAt : List Char → Option (List Char)) : List Char → Option (List Char)
  | [] => none
  | c :: cs =>
    match tryAt (c :: cs) with
    | some cap => some cap
    | none => findFirstCap tryAt cs

/-! ### The semester-header pattern -/

/-- The season alternation
`(?:S\s*p\s*r\s*i\s*n\s*g|S\s*u\s*m\s*m\s*e\s*r|F\s*a\s*l\s*l)`. -/
def seasonCI (l : List Char) : Option (List Char) :=
  match letterSplitCI ("spring").data l with
  | some r => some r
  | none =>
    match letterSplitCI ("summer").data l with
    | some r => some r
    | none => letterSplitCI ("fall").data l

/-- The split-tolerant year `\d[\s\n\r]*\d[\s\n\r]*\d[\s\n\r]*\d`. -/
def yearSplit (l : List Char) : Option (List Char) :=
  (digitCh l).bind (fun r =>
  (digitCh (r.dropWhile isWsChar)).bind (fun r =>
  (digitCh (r.dropWhile isWsChar)).bind (fun r =>
  digitCh (r.dropWhile isWsChar))))

/-- The semester-header regex of parseTranscript at a fixed position:
`Semester\s*[\n\r]*\s*\d+\s*[\n\r]*\s*SEASON\s*[\n\r]*\s*S\s*e\s*m\s*e\s*s\s*t\s*e\s*r\s*[\n\r]*\s*YEAR`
(case-insensitive; `\s*[\n\r]*\s*` accepts exactly the whitespace runs
`\s*` does). -/
def headerCore (l : List Char) : Option (List Char) :=
  (litCI ("semester").data l).bind (fun r =>
  (let r1 := r.dropWhile isWsChar
   let ds := r1.takeWhile Char.isDigit
   if ds.isEmpty then none else some (r1.dropWhile Char.isDigit)).bind (fun r =>
  (seasonCI (r.dropWhile isWsChar)).bind (fun r =>
  (letterSplitCI ("semester").data (r.dropWhile isWsChar)).bind (fun r =>
  yearSplit (r.dropWhile isWsChar)))))

/-- Match length of the header pattern at a fixed position. -/
def headerTryAt (l : List Char) : Option Nat :=
  (headerCore l).map (fun rest => l.length - rest.length)

/-- `text.matchAll` for a `/g` pattern: record `(start, length)` of each
non-overlapping match, resuming after the matched text (after a match of
length ≤ 1 the scan advances one position, as `lastIndex` does). -/
def findAllMatchesFuel (tryAt : List Char → Option Nat) :
    Nat → List Char → Nat → List (Nat × Nat)
  | 0, _, _ => []
  | _ + 1, [], _ => []
  | fuel + 1, c :: cs, i =>
    match tryAt (c :: cs) with
    | none => findAllMatchesFuel tryAt fuel cs (i + 1)
    | some n =>
      if n ≤ 1 then (i, n) :: findAllMatchesFuel tryAt fuel cs (i + 1)
      else (i, n) :: findAllMatchesFuel tryAt fuel ((c :: cs).drop n) (i + n)

def findAllMatches (tryAt : List Char → Option Nat) (l : List Char) (i : Nat) :
    List (Nat × Nat) :=
  findAllMatchesFuel tryAt l.length l i

/-! ### The course-line pattern

`/([A-Z]{2,8}[-]?\d{3,6})\s+(.+?)\s+(\d+\.\d)\s+([A-F][+\-]?|W|I)(\s+Repeat)?/g`
(case-sensitive).  The code group and the whitespace before the lazy title
carry real backtracking; everything after the title is deterministic. -/

structure RawCourse where
  code : List Char
  title : List Char
  credits : List Char
  grade : List Char
  isRepeat : Bool
  deriving DecidableEq

/-- `([A-F][+\-]?|W|I)`. -/
def gradeTok : List Char → Option (List Char × List Char)
  | c :: cs =>
    if 'A' ≤ c && c ≤ 'F' then
      match cs with
      | d :: cs2 => if d = '+' || d = '-' then some ([c, d], cs2) else some ([c], cs)
      | [] => some ([c], [])
    else if c = 'W' then some (['W'], cs)
    else if c = 'I' then some (['I'], cs)
    else none
  | [] => none

/-- `(\s+Repeat)?`, case-sensitive. -/
def repTry (l : List Char) : Option (List Char) :=
  (wsPlus l).bind (fun r => litCS ("Repeat").data r)

/-- `\s+(\d+\.\d)\s+GRADE(\s+Repeat)?` after the title. -/
def courseTail (r : List Char) : Option ((List Char × List Char × Bool) × List Char) :=
  match wsPlus r with
  | none => none
  | some r1 =>
    let ds := r1.takeWhile Char.isDigit
    if ds.isEmpty then none
    else
      match r1.dropWhile Char.isDigit with
      | '.' :: d :: r2 =>
        if d.isDigit then
          match wsPlus r2 with
          | none => none
          | some r3 =>
            match gradeTok r3 with
            | none => none
            | some (g, r4) =>
              match repTry r4 with
              | some r5 => some ((ds ++ ['.', d], g, true), r5)
              | none => some ((ds ++ ['.', d], g, false), r4)
        else none
      | _ => none

/-- The lazy title `(.+?)` (dot excludes line terminators), growing until
the rest of the pattern matches. -/
def titleFrom (acc : List Char) :
    List Char → Option ((List Char × List Char × List Char × Bool) × List Char)
  | [] => none
  | c :: cs =>
    if isDotChar c then
      match courseTail cs with
      | some ((credits, g, rep), rest) => some ((acc ++ [c], credits, g, rep), rest)
      | none => titleFrom (acc ++ [c]) cs
    else none

/-- `\s+(.+?)...` after the course code: the whitespace run is greedy (all
lengths, longest first), the title lazy. -/
def afterCodeSearch (r : List Char) :
    Option ((List Char × List Char × List Char × Bool) × List Char) :=
  let w := (r.takeWhile isWsChar).length
  firstSome (descRange w 1) (fun wlen => titleFrom [] (r.drop wlen))

/-- The whole course pattern at a fixed position; returns the captures and
the matched length. -/
def courseTryAt (l : List Char) : Option (RawCourse × Nat) :=
  let la := min 8 ((l.takeWhile Char.isUpper).length)
  match firstSome (descRange la 2) (fun nL =>
    let code1 := l.take nL
    let r1 := l.drop nL
    let hyphenOpts : List (List Char × List Char) :=
      match r1 with
      | '-' :: cs => [(code1 ++ ['-'], cs), (code1, r1)]
      | _ => [(code1, r1)]
    firstSome hyphenOpts (fun pr =>
      let da := min 6 ((pr.2.takeWhile Char.isDigit).length)
      firstSome (descRange da 3) (fun nD =>
        match afterCodeSearch (pr.2.drop nD) with
        | some ((title, credits, g, rep), rest) =>
            some ((pr.1 ++ pr.2.take nD, title, credits, g, rep), rest)
        | none => none))) with
  | some ((code, title, credits, g, rep), rest) =>
      some ({ code := code, title := title, credits := credits, grade := g,
              isRepeat := rep }, l.length - rest.length)
  | none => none

/-- `text.matchAll(courseRegex)` inside one semester block. -/
def findAllCoursesFuel : Nat → List Char → List RawCourse
  | 0, _ => []
  | _ + 1, [] => []
  | fuel + 1, c :: cs =>
    match courseTryAt (c :: cs) with
    | none => findAllCoursesFuel fuel cs
    | some (rc, n) =>
      if n ≤ 1 then rc :: findAllCoursesFuel fuel cs
      else rc :: findAllCoursesFuel fuel ((c :: cs).drop n)

def findAllCourses (l : List Char) : List RawCourse :=
  findAllCoursesFuel l.length l

/-! ### The Extractor (`parseTranscript`, `parseSemesterBlock`) -/

/-- Build one `Course` from the captures, as the loop body of
parseSemesterBlock does. -/
def buildCourse (rc : RawCourse) : Course :=
  let code := String.mk (trimWs rc.code)
  let title := String.mk (trimWs rc.title)
  let credits := parseFloatQ rc.credits
  let grade := String.mk (trimWs rc.grade)
  { code := code
    title := title
    credits := credits
    grade := grade
    points := getGradePoints grade * (if grade = "W" then 0 else credits)
    isRepeat := rc.isRepeat }

/-- `parseSemesterBlock` from pdf-parser.ts. -/
def parseSemesterBlock (header text : List Char) (index : Nat) : Semester :=
  let courses := (findAllCourses text).map buildCourse
  let parsedSgpa := match findFirstCap sgpaTryAt text with
    | some cap => parseFloatQ cap
    | none => 0
  let effectiveCourses := courses.filter (fun c => c.grade != "W" && c.grade != "I")
  let totalCredits := effectiveCourses.foldl (fun sum c => sum + c.credits) 0
  let totalPoints := effectiveCourses.foldl (fun sum c => sum + c.points) 0
  { id := "sem-" ++ Nat.repr index
    name := String.mk (collapseWs header)
    courses := courses
    sgpa := parsedSgpa
    totalPoints := totalPoints
    totalCredits := totalCredits }

/-- The slicing loop of parseTranscript: each header, together with the
text up to the next header (or the end), is one semester block; a block
with zero course matches is not pushed. -/
def buildSemesters (l : List Char) : List (Nat × Nat) → Nat → List Semester
  | [], _ => []
  | (st, ln) :: rest, i =>
    let endIdx := match rest with
      | (st2, _) :: _ => st2
      | [] => l.length
    let header := (l.drop st).take ln
    let blockText := (l.drop st).take (endIdx - st)
    let semester := parseSemesterBlock header blockText i
    let tail := buildSemesters l rest (i + 1)
    if semester.courses.length > 0 then semester :: tail else tail

/-- The student-identity section of parseTranscript (best-effort field
recovery; a failed match yields the "Unknown" sentinel, an absent footer
CGPA yields "0.00"). -/
def extractStudent (l : List Char) : StudentInfo :=
  { name := match findFirstCap nameTryAt l with
      | some cap => clean cap
      | none => "Unknown"
    fatherName := match findFirstCap fatherTryAt l with
      | some cap => clean cap
      | none => "Unknown"
    studentNo := match findFirstCap stdNoTryAt l with
      | some cap => clean cap
      | none => "Unknown"
    regStatus := match findFirstCap regStatusTryAt l with
      | some cap => clean cap
      | none => "Unknown"
    program := match findFirstCap programTryAt l with
      | some cap => clean cap
      | none => "Unknown"
    cgpa := match findFirstCap cgpaTryAt l with
      | some cap => String.mk (trimWs cap)
      | none => "0.00" }

/-- `parseTranscript` from pdf-parser.ts.  Zero header matches only produce
a console warning in the source; the function still returns the student
identity with an empty semester list. -/
def parseTranscript (text : String) : TranscriptData :=
  let l := text.data
  let student := extractStudent l
  let headerHits := findAllMatches headerTryAt l 0
  let semesters := buildSemesters l headerHits 0
  { student := student
    semesters := semesters
    extractedCgpa := student.cgpa }

/-! ### Specification-side definitions used in theorem statements -/

/-- Fold a group of same-key courses onto an optional already-stored winner
with `pickWinner`; `groupCombine none` is the per-group winner of the
retake policy over a flattened course list. -/
def groupCombine (o : Option Course) (cs : List Course) : Option Course :=
  match o with
  | some e => some (cs.foldl pickWinner e)
  | none =>
    match cs with
    | [] => none
    | c :: cs2 => some (cs2.foldl pickWinner c)

/-- The shape `\d?\.\d{2}` of a two-decimal numeric string. -/
def isTwoDecimalString : List Char → Bool
  | [c1, dot, a, b] => c1.isDigit && dot == '.' && a.isDigit && b.isDigit
  | [dot, a, b] => dot == '.' && a.isDigit && b.isDigit
  | _ => false

/-! ### Concrete inputs and values used by the claim theorems -/

/-- The end-to-end scenario input of C1: student header, one semester
header, two course lines. -/
def c1Text : String :=
  "Student Name: Jane Doe Father" ++ aposS ++
  "s Name: John Doe Student No: 12345 Reg Status Active Program: BSCS Course Code" ++
  "\nSemester 1 Fall Semester 2023\nCS101 Intro 3.0 A\nMATH101 Calc 3.0 F"

def c1CourseA : Course :=
  { code := "CS101", title := "Intro", credits := 3, grade := "A", points := 12,
    isRepeat := false }

def c1CourseF : Course :=
  { code := "MATH101", title := "Calc", credits := 3, grade := "F", points := 0,
    isRepeat := false }

/-- An attempt worth 2 points over 0.5 credits (an `A` at half a credit). -/
def c2CourseA : Course :=
  { code := "QT101", title := "Seminar", credits := 1/2, grade := "A", points := 2,
    isRepeat := false }

/-- A later attempt at the same course: 9 points over 3 credits (a `B`). -/
def c2CourseB : Course :=
  { code := "QT101", title := "Seminar", credits := 3, grade := "B", points := 9,
    isRepeat := true }

def c2Semesters : List Semester :=
  [{ id := "sem-0", name := "Semester 1 Fall Semester 2022",
     courses := [c2CourseA, c2CourseB], sgpa := 0, totalPoints := 11,
     totalCredits := 7/2 }]

/-- An earlier `C` attempt (6 points over 3 credits) of course CS-101. -/
def c2RetakeC : Course :=
  { code := "CS-101", title := "Programming", credits := 3, grade := "C", points := 6,
    isRepeat := false }

/-- A later `A` attempt (12 points over 3 credits) of the same course,
written `cs101`. -/
def c2RetakeA : Course :=
  { code := "cs101", title := "Programming", credits := 3, grade := "A", points := 12,
    isRepeat := true }

def c2RetakeSemesters : List Semester :=
  [{ id := "sem-0", name := "Semester 1 Fall Semester 2022",
     courses := [c2RetakeC], sgpa := 2, totalPoints := 6, totalCredits := 3 },
   { id := "sem-1", name := "Semester 2 Spring Semester 2023",
     courses := [c2RetakeA], sgpa := 4, totalPoints := 12, totalCredits := 3 }]

def c3DemoSem : Semester :=
  { id := "s1", name := "Demo",
    courses := [{ code := "MA101", title := "Sets", credits := 3, grade := "B",
                  points := 9, isRepeat := false }],
    sgpa := 3, totalPoints := 9, totalCredits := 3 }

def c4Header : String := "Semester 1 Fall Semester 2023"

/-- A semester block with one `A` course and no SGPA label. -/
def c4Block : String := "Semester 1 Fall Semester 2023\nCS101 Intro 3.0 A"

def c4WitSem : Semester :=
  { id := "s4", name := "Demo",
    courses := [{ code := "MA101", title := "Sets", credits := 3, grade := "B",
                  points := 9, isRepeat := false }],
    sgpa := 3, totalPoints := 9, totalCredits := 3 }

/-- The semester produced by changing MA101 of `c4WitSem` to an `A`. -/
def c4WitOut : Semester :=
  { id := "s4", name := "Demo",
    courses := [{ code := "MA101", title := "Sets", credits := 3, grade := "A",
                  points := 12, isRepeat := false }],
    sgpa := 4, totalPoints := 12, totalCredits := 3 }

def c6Block : String := "PHY-1101 Waves 3.0 B+ Repeat"

def c6Course : Course :=
  { code := "PHY-1101", title := "Waves", credits := 3, grade := "B+", points := 21/2,
    isRepeat := true }

/-- A header with letter-by-letter season, second word and year, and line
breaks between tokens. -/
def c8SplitSeason : String :=
  "Semester 1\nF a l l\nS e m e s t e r\n2 0 2 3\nCS101 Intro 3.0 A"

/-- The same header tokens with the leading word "Semester" letter-split. -/
def c8SplitLead : String := "S e m e s t e r 1 Fall Semester 2023\nCS101 Intro 3.0 A"

def c8SplitLead2 : String := "S e m e s t e r 2 Spring Semester 2024"

def c9WitText : String := "CUMULATIVE GRADE POINT AVERAGE(CGPA) = 3.45"

def c10Text : String := "Semester 1 Summer Semester 2022 MA101 Sets 3.0 B"

def c10Sem : Semester :=
  { id := "sem-0", name := "Semester 1 Summer Semester 2022",
    courses := [{ code := "MA101", title := "Sets", credits := 3, grade := "B",
                  points := 9, isRepeat := false }],
    sgpa := 0, totalPoints := 9, totalCredits := 3 }

/-! ### Helper lemmas -/

set_option maxRecDepth 400000

theorem jsOr0_eq (q : Q) : jsOr0 q = q := by
  unfold jsOr0
  split
  · rename_i h
    rw [h]
  · rfl

theorem foldl_add_jsOr0_credits (l : List Course) (a : Q) :
    l.foldl (fun sum c => sum + jsOr0 c.credits) a =
      l.foldl (fun sum c => sum + c.credits) a := by
  induction l generalizing a with
  | nil => rfl
  | cons c t ih => simp [List.foldl_cons, jsOr0_eq, ih]

theorem foldl_add_jsOr0_points (l : List Course) (a : Q) :
    l.foldl (fun sum c => sum + jsOr0 c.points) a =
      l.foldl (fun sum c => sum + c.points) a := by
  induction l generalizing a with
  | nil => rfl
  | cons c t ih => simp [List.foldl_cons, jsOr0_eq, ih]

theorem mapLookup_append (k key : String) (v : Course) (m : List (String × Course)) :
    mapLookup k (m ++ [(key, v)]) =
      match mapLookup k m with
      | some e => some e
      | none => if key = k then some v else none := by
  induction m with
  | nil => simp [mapLookup]
  | cons p t ih =>
    obtain ⟨k2, v2⟩ := p
    by_cases h : k2 = k
    · simp [mapLookup, h]
    · simp [mapLookup, h, ih]

theorem mapLookup_mapSet_self (key : String) (v : Course) (m : List (String × Course)) :
    mapLookup key (mapSet key v m) = some v := by
  induction m with
  | nil => simp [mapSet, mapLookup]
  | cons p t ih =>
    obtain ⟨k2, v2⟩ := p
    by_cases h : k2 = key
    · simp [mapSet, mapLookup, h]
    · simp [mapSet, mapLookup, h, ih]

theorem mapLookup_mapSet_ne (k key : String) (hk : k ≠ key) (v : Course)
    (m : List (String × Course)) :
    mapLookup k (mapSet key v m) = mapLookup k m := by
  induction m with
  | nil => simp [mapSet, mapLookup, Ne.symm hk]
  | cons p t ih =>
    obtain ⟨k2, v2⟩ := p
    by_cases h2 : k2 = key
    · subst h2
      simp [mapSet, mapLookup, Ne.symm hk]
    · by_cases h3 : k2 = k
      · simp [mapSet, mapLookup, h2, h3, hk]
      · simp [mapSet, mapLookup, h2, h3, ih]

theorem mapLookup_cgpaStep (m : List (String × Course)) (course : Course) (k : String) :
    mapLookup k (cgpaStep m course) =
      if normalizeCode course.code = k then
        match mapLookup k m with
        | none => some course
        | some e => some (pickWinner e course)
      else mapLookup k m := by
  simp only [cgpaStep, pickWinner]
  cases hm : mapLookup (normalizeCode course.code) m with
  | none =>
    rw [mapLookup_append]
    by_cases hk : normalizeCode course.code = k
    · subst hk
      rw [hm]
    · cases hmk : mapLookup k m <;> simp [hk, hmk]
  | some e =>
    by_cases hk : normalizeCode course.code = k
    · subst hk
      rw [hm]
      by_cases hr : (jsRatio e).blt (jsRatio course) = true
      · simp [hr, mapLookup_mapSet_self]
      · simp [hr, hm]
    · have hk2 : k ≠ normalizeCode course.code := fun h => hk h.symm
      rw [if_neg hk]
      by_cases hr : (jsRatio e).blt (jsRatio course) = true
      · simp [hr, mapLookup_mapSet_ne k _ hk2]
      · simp [hr]

theorem groupCombine_nil (o : Option Course) : groupCombine o [] = o := by
  cases o <;> rfl

theorem mapLookup_foldl_cgpaStep (l : List Course) (m : List (String × Course)) (k : String) :
    mapLookup k (l.foldl cgpaStep m) =
      groupCombine (mapLookup k m) (l.filter (fun c => normalizeCode c.code == k)) := by
  induction l generalizing m with
  | nil => simp [groupCombine_nil]
  | cons c t ih =>
    rw [List.foldl_cons, ih, mapLookup_cgpaStep]
    by_cases hc : normalizeCode c.code = k
    · rw [if_pos hc]
      rw [List.filter_cons_of_pos (by simpa using hc)]
      cases hmk : mapLookup k m with
      | none => simp [groupCombine]
      | some e => simp [groupCombine, List.foldl_cons]
    · rw [if_neg hc]
      rw [List.filter_cons_of_neg (by simpa using hc)]

theorem buildCourseMap_flat (ss : List Semester) (m : List (String × Course)) :
    ss.foldl (fun m sem => sem.courses.foldl cgpaStep m) m =
      ((ss.map Semester.courses).flatten).foldl cgpaStep m := by
  induction ss generalizing m with
  | nil => rfl
  | cons s t ih => simp [List.foldl_append, ih]

/-! ### Claim theorems -/

/-- C1: the end-to-end scenario.  The student header together with one
recognized semester header and the two course lines `CS101 Intro 3.0 A` and
`MATH101 Calc 3.0 F` parses to the claimed student identity (name
"Jane Doe", father "John Doe", number "12345", status "Active", program
"BSCS") and exactly one semester with exactly those two courses, and
`calculateCGPA` on that single semester returns totalCredits 6, totalPoints
12, cgpa "2.00" and totalEarnedCredits 3. -/
theorem c1_end_to_end_scenario :
    (parseTranscript c1Text).student =
      { name := "Jane Doe", fatherName := "John Doe", studentNo := "12345",
        program := "BSCS", regStatus := "Active", cgpa := "0.00" } ∧
    (parseTranscript c1Text).semesters =
      [{ id := "sem-0", name := "Semester 1 Fall Semester 2023",
         courses := [c1CourseA, c1CourseF], sgpa := 0, totalPoints := 12,
         totalCredits := 6 }] ∧
    calculateCGPA (parseTranscript c1Text).semesters =
      { cgpa := "2.00", totalCredits := 6, totalPoints := 12,
        totalEarnedCredits := 3 } := by
  decide

/-- C2 counterexample: the claim computes the replacement ratio as
`points / max(credits, 1)`, but the code computes `points / (credits || 1)`.
For an earlier attempt with 0.5 credits and 2 points and a later attempt
with 3 credits and 9 points, the later attempt has the strictly higher
claimed ratio (3 against 2), yet `calculateCGPA` keeps the earlier one: its
totals come from the 0.5-credit attempt, not from the 3-credit one the
claim predicts. -/
theorem c2_ratio_counterexample :
    (Q.div c2CourseA.points (Q.max c2CourseA.credits 1)).blt
      (Q.div c2CourseB.points (Q.max c2CourseB.credits 1)) = true ∧
    calculateCGPA c2Semesters =
      { cgpa := "4.00", totalCredits := 1/2, totalPoints := 2,
        totalEarnedCredits := 1/2 } := by
  decide

/-- C4 counterexample: a parsed semester block with no SGPA label stores
`sgpa = 0`, while recomputation from its course list (one `A` over 3
credits) yields 4, so the parsed Semester is not a fixpoint of
`recalculateSemester`. -/
theorem c4_parsed_sgpa_counterexample :
    (parseSemesterBlock c4Header.data c4Block.data 0).sgpa = 0 ∧
    (recalculateSemester (parseSemesterBlock c4Header.data c4Block.data 0)).sgpa = 4 ∧
    recalculateSemester (parseSemesterBlock c4Header.data c4Block.data 0) ≠
      parseSemesterBlock c4Header.data c4Block.data 0 := by
  decide

/-- C8 counterexample: a header occurrence whose leading word "Semester" is
letter-split (`S e m e s t e r 1 Fall Semester 2023`) is not recognized:
the header scan finds nothing and the parse yields no semesters, although
the claim says any token may be letter-split. -/
theorem c8_letter_split_counterexample :
    findAllMatches headerTryAt c8SplitLead.data 0 = [] ∧
    (parseTranscript c8SplitLead).semesters = [] := by
  decide

/-- C8 (amended): line breaks between tokens are tolerated everywhere, and
letter-by-letter spacing is tolerated inside the season name, the second
word "Semester" and the year — such a header is recognized as a boundary
and produces a semester — but the leading word "Semester" and the ordinal
must be contiguous: a letter-split leading word is not recognized. -/
theorem c8_header_tolerance_amended :
    (findAllMatches headerTryAt c8SplitSeason.data 0).length = 1 ∧
    (parseTranscript c8SplitSeason).semesters.map (fun s => (s.name, s.courses.length)) =
      [("Semester 1 F a l l S e m e s t e r 2 0 2 3", 1)] ∧
    findAllMatches headerTryAt c8SplitLead2.data 0 = [] := by
  decide

/-- C2 (amended): `calculateCGPA` counts each course once per normalized
code; among the courses sharing a normalized code, in flattened document
order, the winner is the left fold of `pickWinner` starting from the first
attempt — the first one seen, replaced by a later attempt exactly when the
later one has a strictly higher `points / (credits == 0 ? 1 : credits)`
ratio (the JS `credits || 1`, not `max(credits, 1)`), equal ratios keeping
the earlier attempt.  In particular an earlier C (6 points over 3 credits)
and a later A (12 points over 3 credits) under the same normalized code
count only the A, once. -/
theorem c2_retake_dedup_amended :
    (∀ (semesters : List Semester) (key : String),
      mapLookup key (buildCourseMap semesters) =
        groupCombine none
          (((semesters.map Semester.courses).flatten).filter
            (fun c => normalizeCode c.code == key))) ∧
    calculateCGPA c2RetakeSemesters =
      { cgpa := "4.00", totalCredits := 3, totalPoints := 12,
        totalEarnedCredits := 3 } := by
  constructor
  · intro ss key
    unfold buildCourseMap
    rw [buildCourseMap_flat, mapLookup_foldl_cgpaStep]
    rfl
  · decide

theorem progressionsGo_getElem (rest : List Semester) (p : List Semester) (i : Nat) :
    (progressionsGo p rest).get? i =
      (rest.get? i).map (fun s =>
        { semesterId := s.id
          cumulativeCGPA := (calculateCGPA (p ++ rest.take (i + 1))).cgpa
          cumulativeCredits := (calculateCGPA (p ++ rest.take (i + 1))).totalCredits }) := by
  induction rest generalizing p i with
  | nil => simp [progressionsGo]
  | cons s t ih =>
    cases i with
    | zero => simp [progressionsGo]
    | succ n =>
      simp only [progressionsGo, List.get?]
      rw [ih]
      simp [List.append_assoc]

theorem mem_length_of_get?_eq_some {α : Type} (l : List α) (n : Nat) (a : α)
    (h : l.get? n = some a) : n < l.length := by
  induction l generalizing n with
  | nil => simp [List.get?] at h
  | cons x t ih =>
    cases n with
    | zero => simp
    | succ m =>
      simp only [List.get?] at h
      exact Nat.succ_lt_succ (ih m h)

theorem get?_append_left {α : Type} (l₁ l₂ : List α) (n : Nat) (h : n < l₁.length) :
    (l₁ ++ l₂).get? n = l₁.get? n := by
  induction l₁ generalizing n with
  | nil => simp at h
  | cons x t ih =>
    cases n with
    | zero => rfl
    | succ m =>
      simp only [List.cons_append, List.get?]
      exact ih m (Nat.lt_of_succ_lt_succ h)

theorem take_append_left {α : Type} (l₁ l₂ : List α) (n : Nat) (h : n ≤ l₁.length) :
    (l₁ ++ l₂).take n = l₁.take n := by
  induction l₁ generalizing n with
  | nil =>
    have : n = 0 := Nat.le_zero.mp h
    simp [this]
  | cons x t ih =>
    cases n with
    | zero => rfl
    | succ m =>
      simp only [List.cons_append, List.take]
      exact congrArg (List.cons x) (ih m (Nat.le_of_succ_le_succ h))

/-- C3: `calculateSemesterProgressions(semesters)[i]` carries the id of
`semesters[i]`, the cgpa of `calculateCGPA` on the prefix `semesters[0..=i]`
and that prefix's totalCredits; and the entry at index `i` is unchanged by
appending later semesters, so a retake appearing only in a later semester
does not alter earlier progression entries. -/
theorem c3_progression_cumulative (ss : List Semester) (i : Nat) (sem : Semester)
    (h : ss.get? i = some sem) :
    (calculateSemesterProgressions ss).get? i =
      some { semesterId := sem.id
             cumulativeCGPA := (calculateCGPA (ss.take (i + 1))).cgpa
             cumulativeCredits := (calculateCGPA (ss.take (i + 1))).totalCredits } ∧
    ∀ ts, (calculateSemesterProgressions (ss ++ ts)).get? i =
        (calculateSemesterProgressions ss).get? i := by
  have hlen : i < ss.length := mem_length_of_get?_eq_some ss i sem h
  constructor
  · unfold calculateSemesterProgressions
    rw [progressionsGo_getElem, h]
    simp
  · intro ts
    unfold calculateSemesterProgressions
    rw [progressionsGo_getElem, progressionsGo_getElem,
      get?_append_left ss ts i hlen, take_append_left ss ts (i + 1) hlen]

/-- C3 witness: the progression of the single demo semester at index 0. -/
theorem c3_progression_cumulative_witness :
    (calculateSemesterProgressions [c3DemoSem]).get? 0 =
      some { semesterId := "s1", cumulativeCGPA := "3.00", cumulativeCredits := 3 } := by
  have h := (c3_progression_cumulative [c3DemoSem] 0 c3DemoSem rfl).1
  rw [h]
  decide

/-- C4 (amended): the stored `totalCredits` and `totalPoints` of a parsed
semester always equal what recomputation from its course list yields, and
edit operations route every touched semester through
`recalculateSemester`, whose outputs are fixpoints of recomputation; but
the parse-time `sgpa` is the document-reported value (default 0), which
may diverge from recomputation. -/
theorem c4_derived_fields_amended :
    (∀ (header text : List Char) (i : Nat),
      (recalculateSemester (parseSemesterBlock header text i)).totalCredits =
        (parseSemesterBlock header text i).totalCredits ∧
      (recalculateSemester (parseSemesterBlock header text i)).totalPoints =
        (parseSemesterBlock header text i).totalPoints) ∧
    (∀ sem : Semester,
      recalculateSemester (recalculateSemester sem) = recalculateSemester sem) ∧
    (∀ (semId courseCode newGrade : String) (sems : List Semester) (sem : Semester),
      sem ∈ handleGradeChange semId courseCode newGrade sems →
      sem ∈ sems ∨ recalculateSemester sem = sem) := by
  refine ⟨?_, ?_, ?_⟩
  · intro header text i
    constructor
    · show ((parseSemesterBlock header text i).courses.filter
          (fun c => c.grade != "W" && c.grade != "I")).foldl
            (fun sum c => sum + jsOr0 c.credits) 0 =
        (parseSemesterBlock header text i).totalCredits
      rw [foldl_add_jsOr0_credits]
      rfl
    · show ((parseSemesterBlock header text i).courses.filter
          (fun c => c.grade != "W" && c.grade != "I")).foldl
            (fun sum c => sum + jsOr0 c.points) 0 =
        (parseSemesterBlock header text i).totalPoints
      rw [foldl_add_jsOr0_points]
      rfl
  · intro sem
    rfl
  · intro semId courseCode newGrade sems sem hmem
    unfold handleGradeChange at hmem
    rw [List.mem_map] at hmem
    obtain ⟨x, hx, hfx⟩ := hmem
    by_cases hid : (x.id != semId) = true
    · rw [if_pos hid] at hfx
      exact Or.inl (hfx ▸ hx)
    · rw [if_neg hid] at hfx
      right
      rw [← hfx]
      rfl

/-- C4 witness for the edit conjunct: changing MA101 of the demo semester
to an A produces a semester that is a fixpoint of recomputation. -/
theorem c4_derived_fields_amended_witness :
    c4WitOut ∈ handleGradeChange "s4" "MA101" "A" [c4WitSem] ∧
    (c4WitOut ∈ [c4WitSem] ∨ recalculateSemester c4WitOut = c4WitOut) := by
  refine ⟨by decide, ?_⟩
  exact c4_derived_fields_amended.2.2 "s4" "MA101" "A" [c4WitSem] c4WitOut (by decide)

/-- C5: on an input with zero recognized semester headers the Extractor
does not fail — `parseTranscript` is a total function that returns the
best-effort student identity with an empty semester list — and only the
caller's check in `handleFileUpload` turns zero semesters into an
extraction failure. -/
theorem c5_zero_headers_no_failure (text : String)
    (h : findAllMatches headerTryAt text.data 0 = []) :
    (parseTranscript text).semesters = [] ∧
    (parseTranscript text).student = extractStudent text.data ∧
    handleUploadCheck (parseTranscript text) =
      Except.error "Could not find any semester data. Please check the PDF format." := by
  have hsem : (parseTranscript text).semesters = [] := by
    have hb : (parseTranscript text).semesters =
        buildSemesters text.data (findAllMatches headerTryAt text.data 0) 0 := rfl
    rw [hb, h]
    rfl
  refine ⟨hsem, rfl, ?_⟩
  simp [handleUploadCheck, hsem]

/-- C5 witness: a header-free input. -/
theorem c5_zero_headers_no_failure_witness :
    (parseTranscript "hello world").semesters = [] ∧
    handleUploadCheck (parseTranscript "hello world") =
      Except.error "Could not find any semester data. Please check the PDF format." := by
  have h := c5_zero_headers_no_failure "hello world" (by decide)
  exact ⟨h.1, h.2.2⟩

theorem parseCourse_points (header text : List Char) (i : Nat) (c : Course)
    (h : c ∈ (parseSemesterBlock header text i).courses) :
    c.points = getGradePoints c.grade * (if c.grade = "W" then 0 else c.credits) := by
  have hc : (parseSemesterBlock header text i).courses =
      (findAllCourses text).map buildCourse := rfl
  rw [hc, List.mem_map] at h
  obtain ⟨rc, _, hrc⟩ := h
  subst hrc
  rfl

/-- C6: every parsed course stores
`points = gradePoints(grade) * credits`, except that a `W` grade zeroes the
credits factor (`gradePoints(grade) * 0`); an `I` course still multiplies
its credits into the stored points; and the edit-time recomputation of
`handleGradeChange` applies the identical formula. -/
theorem c6_points_w_asymmetry :
    (∀ (header text : List Char) (i : Nat) (c : Course),
      c ∈ (parseSemesterBlock header text i).courses →
      c.points = if c.grade = "W" then getGradePoints c.grade * 0
                 else getGradePoints c.grade * c.credits) ∧
    (∀ (course : Course) (newGrade : String),
      (updateCourseGrade newGrade course).points =
        if newGrade = "W" then getGradePoints newGrade * 0
        else getGradePoints newGrade * course.credits) ∧
    (∀ course : Course, (updateCourseGrade "I" course).points =
        getGradePoints "I" * course.credits) := by
  refine ⟨?_, ?_, ?_⟩
  · intro header text i c h
    rw [parseCourse_points header text i c h]
    by_cases hw : c.grade = "W" <;> simp [hw]
  · intro course newGrade
    unfold updateCourseGrade
    by_cases hw : newGrade = "W" <;> simp [hw]
  · intro course
    rfl

/-- C6 witness: the parsed `PHY-1101 Waves 3.0 B+ Repeat` course. -/
theorem c6_points_w_asymmetry_witness :
    c6Course ∈ (parseSemesterBlock ("H").data c6Block.data 0).courses ∧
    c6Course.points = (if c6Course.grade = "W" then getGradePoints c6Course.grade * 0
                       else getGradePoints c6Course.grade * c6Course.credits) := by
  refine ⟨by decide, ?_⟩
  exact c6_points_w_asymmetry.1 ("H").data c6Block.data 0 c6Course (by decide)

theorem lookupGP_none_of_not_mem (g : String) (l : List (String × Q))
    (h : g ∉ l.map Prod.fst) : lookupGP g l = none := by
  induction l with
  | nil => rfl
  | cons p t ih =>
    obtain ⟨k, v⟩ := p
    simp only [List.map_cons, List.mem_cons, not_or] at h
    unfold lookupGP
    rw [if_neg (fun hkg => h.1 hkg.symm)]
    exact ih h.2

/-- C7: the Ledger Engine is total and never rejects input — when the
winning non-excluded credits sum to zero, `calculateCGPA` returns the
string "0.00" instead of failing, and a grade outside the known table
contributes zero points; `calculateCGPA` and `getGradePoints` are total
functions with no other failure mode. -/
theorem c7_ledger_total (semesters : List Semester) (g : String)
    (h1 : (calculateCGPA semesters).totalCredits = 0)
    (h2 : g ∉ GRADE_POINTS.map Prod.fst) :
    (calculateCGPA semesters).cgpa = "0.00" ∧ getGradePoints g = 0 := by
  constructor
  · have hc : (calculateCGPA semesters).cgpa =
        if Q.blt 0 (cgpaTotals (buildCourseMap semesters)).2.1 then
          toFixed2 ((cgpaTotals (buildCourseMap semesters)).1 /
            (cgpaTotals (buildCourseMap semesters)).2.1)
        else "0.00" := rfl
    have ht : (cgpaTotals (buildCourseMap semesters)).2.1 = 0 := h1
    rw [hc, ht]
    rfl
  · unfold getGradePoints
    rw [lookupGP_none_of_not_mem g GRADE_POINTS h2]
    rfl

/-- C7 witness: the empty semester list and the unknown grade "Z+". -/
theorem c7_ledger_total_witness :
    (calculateCGPA []).totalCredits = 0 ∧ "Z+" ∉ GRADE_POINTS.map Prod.fst ∧
    ((calculateCGPA []).cgpa = "0.00" ∧ getGradePoints "Z+" = 0) := by
  refine ⟨by decide, by decide, ?_⟩
  exact c7_ledger_total [] "Z+" (by decide) (by decide)

theorem capNoDigit_shape (l cap : List Char) (h : capNoDigit l = some cap) :
    isTwoDecimalString cap = true := by
  match l with
  | [] => exact Option.noConfusion h
  | [a] => exact Option.noConfusion h
  | [a, b] => exact Option.noConfusion h
  | dot :: a :: b :: rest =>
    simp only [capNoDigit] at h
    by_cases hc : (dot == '.' && a.isDigit && b.isDigit) = true
    · rw [if_pos hc] at h
      cases h
      exact hc
    · rw [if_neg hc] at h
      exact Option.noConfusion h

theorem capTwoDec_shape (l cap : List Char) (h : capTwoDec l = some cap) :
    isTwoDecimalString cap = true := by
  match l with
  | [] => exact capNoDigit_shape [] cap h
  | [a] => exact capNoDigit_shape [a] cap h
  | [a, b] => exact capNoDigit_shape [a, b] cap h
  | [a, b, c] => exact capNoDigit_shape [a, b, c] cap h
  | c1 :: c2 :: a :: b :: rest =>
    simp only [capTwoDec] at h
    by_cases hc : (c1.isDigit && c2 == '.' && a.isDigit && b.isDigit) = true
    · rw [if_pos hc] at h
      cases h
      exact hc
    · rw [if_neg hc] at h
      exact capNoDigit_shape _ _ h

theorem cgpaTryAt_shape (l cap : List Char) (h : cgpaTryAt l = some cap) :
    isTwoDecimalString cap = true := by
  simp only [cgpaTryAt, Option.bind_eq_some] at h
  obtain ⟨r1, _, r2, _, r3, _, r4, _, r5, _, r6, _, r7, _, r8, _, r9, _, r10, _,
    r11, _, r12, _, hfin⟩ := h
  exact capTwoDec_shape _ _ hfin

theorem findFirstCap_shape (tryAt : List Char → Option (List Char))
    (H : ∀ l cap, tryAt l = some cap → isTwoDecimalString cap = true) :
    ∀ l cap, findFirstCap tryAt l = some cap → isTwoDecimalString cap = true := by
  intro l
  induction l with
  | nil =>
    intro cap h
    simp [findFirstCap] at h
  | cons c cs ih =>
    intro cap h
    unfold findFirstCap at h
    cases htry : tryAt (c :: cs) with
    | some v =>
      rw [htry] at h
      cases h
      exact H _ _ htry
    | none =>
      rw [htry] at h
      exact ih cap h

theorem extractStudent_cgpa (l : List Char) :
    (extractStudent l).cgpa =
      match findFirstCap cgpaTryAt l with
      | some cap => String.mk (trimWs cap)
      | none => "0.00" := rfl

/-- C9: the Extractor reads the optional self-reported cumulative GPA from
the document footer — when the footer pattern matches, the captured text is
a two-decimal numeric string stored on the student identity, and when it
does not, the stored value defaults to "0.00". -/
theorem c9_cgpa_footer (text : String) :
    (findFirstCap cgpaTryAt text.data = none →
      (parseTranscript text).student.cgpa = "0.00") ∧
    (∀ cap, findFirstCap cgpaTryAt text.data = some cap →
      (parseTranscript text).student.cgpa = String.mk (trimWs cap) ∧
      isTwoDecimalString cap = true) := by
  have hs : (parseTranscript text).student = extractStudent text.data := rfl
  constructor
  · intro h
    rw [hs, extractStudent_cgpa, h]
  · intro cap h
    refine ⟨?_, findFirstCap_shape cgpaTryAt cgpaTryAt_shape text.data cap h⟩
    rw [hs, extractStudent_cgpa, h]

/-- C9 witness: a footer carrying CGPA 3.45, and a two-decimal capture. -/
theorem c9_cgpa_footer_witness :
    (parseTranscript c9WitText).student.cgpa = "3.45" ∧
    isTwoDecimalString ("3.45").data = true := by
  have h := (c9_cgpa_footer c9WitText).2 ("3.45").data (by decide)
  exact ⟨h.1.trans (by decide), h.2⟩

theorem buildSemesters_mem_ne_nil (l : List Char) (ms : List (Nat × Nat)) (i : Nat)
    (s : Semester) (h : s ∈ buildSemesters l ms i) : s.courses ≠ [] := by
  induction ms generalizing i with
  | nil => simp [buildSemesters] at h
  | cons hd t ih =>
    obtain ⟨st, ln⟩ := hd
    simp only [buildSemesters] at h
    split at h
    · rename_i hpos
      rcases List.mem_cons.mp h with h1 | h2
      · subst h1
        exact List.ne_nil_of_length_pos hpos
      · exact ih (i + 1) h2
    · exact ih (i + 1) h

/-- C10: every semester of a `parseTranscript` result has a non-empty
course list — a block with zero course matches is discarded inside
`parseTranscript` and never surfaces to callers. -/
theorem c10_no_empty_semesters (text : String) (s : Semester)
    (h : s ∈ (parseTranscript text).semesters) : s.courses ≠ [] := by
  have hb : (parseTranscript text).semesters =
      buildSemesters text.data (findAllMatches headerTryAt text.data 0) 0 := rfl
  rw [hb] at h
  exact buildSemesters_mem_ne_nil text.data _ 0 s h

/-- C10 witness: the one-course parse of `c10Text`. -/
theorem c10_no_empty_semesters_witness :
    c10Sem ∈ (parseTranscript c10Text).semesters ∧ c10Sem.courses ≠ [] := by
  refine ⟨by decide, ?_⟩
  exact c10_no_empty_semesters c10Text c10Sem (by decide)

end TransGPA
